import Mathlib

/-!
Shallow embedding of the mousygons particle effect (src/index.ts).

Numbers (JS `number`) are embedded as `ℚ`; the only irrational operation in
the source, `Math.sqrt` inside `distanceToCoords`, is embedded as `Real.sqrt`
over the rational squared distance.  Randomness (`Math.random()`, values in
[0,1)) is embedded as an explicit list of rationals consumed in call order;
the unbounded `while` loops of `createPoint` and the index loop of
`updatePoints` are embedded with explicit structural recursion (a rand-stream
that runs dry yields `none`; the update loop carries fuel `pts.length`, an
upper bound on its iteration count, so the fuel never runs out).
DOM/canvas side effects are embedded as an explicit state record plus a list
of emitted canvas operations.
-/

/-- RGB triple returned by `hexToRgb`. -/
structure RGB where
  r : Nat
  g : Nat
  b : Nat
deriving DecidableEq

/-- The `Point` class: position, square edge length, fade (alpha) state. -/
structure Point where
  x : ℚ
  y : ℚ
  dimensions : ℚ
  alpha : ℚ
  alphaSpeed : ℚ
  satisfied : Bool
deriving DecidableEq

/-- `Point.ALPHA_THRESHOLD = 255`. -/
def Point.ALPHA_THRESHOLD : ℚ := 255

/-- The `Point` constructor: `alpha = 0`, `satisfied = false`. -/
def Point.construct (x y dimensions alphaSpeed : ℚ) : Point :=
  { x := x, y := y, dimensions := dimensions, alpha := 0,
    alphaSpeed := alphaSpeed, satisfied := false }

/-- `distanceToCoords(x, y)`: `Math.sqrt(a*a + b*b)` with `a = this.x - x`,
`b = this.y - y`. -/
noncomputable def Point.distanceToCoords (p : Point) (x y : ℚ) : ℝ :=
  Real.sqrt (((p.x - x) * (p.x - x) + (p.y - y) * (p.y - y) : ℚ) : ℝ)

/-- `distanceTo(point)`: Euclidean distance between two points. -/
noncomputable def Point.distanceTo (p q : Point) : ℝ :=
  Real.sqrt (((p.x - q.x) * (p.x - q.x) + (p.y - q.y) * (p.y - q.y) : ℚ) : ℝ)

/-- `update()`: if not satisfied, add `alphaSpeed` to `alpha`; set `satisfied`
when the new alpha reaches `ALPHA_THRESHOLD`. -/
def Point.update (p : Point) : Point :=
  if p.satisfied then p
  else
    let alpha := p.alpha + p.alphaSpeed
    { p with alpha := alpha, satisfied := decide (alpha ≥ Point.ALPHA_THRESHOLD) }

/-- `n` successive calls of `update()`. -/
def Point.updateN (p : Point) : Nat → Point
  | 0 => p
  | n + 1 => (p.updateN n).update

/-- Executable form of the conflict test
`point.distanceToCoords(positionX, positionY) <= dimensions * 6` used in
`createPoint`; `conflictsWith_true_iff` proves it is exactly that comparison. -/
def Point.conflictsWith (p : Point) (x y dimensions : ℚ) : Bool :=
  decide (0 ≤ dimensions * 6 ∧
    (p.x - x) * (p.x - x) + (p.y - y) * (p.y - y) ≤ (dimensions * 6) ^ 2)

/-- Constants of the `Mousygons` class. -/
def Mousygons.MAX_POINTS_ALIVE : Nat := 6

/-- Overlay cursor width constant (12). -/
def Mousygons.MOUSE_WIDTH : ℚ := 12

/-- Overlay cursor height constant (20). -/
def Mousygons.MOUSE_HEIGHT : ℚ := 20

/-- Canvas width constant (64). -/
def Mousygons.CANVAS_WIDTH : ℚ := 64

/-- Canvas height constant (64). -/
def Mousygons.CANVAS_HEIGHT : ℚ := 64

/-- Fade-speed lower bound (0.25). -/
def Mousygons.FADE_MIN : ℚ := 0.25

/-- Fade-speed upper bound (1.75). -/
def Mousygons.FADE_MAX : ℚ := 1.75

/-- `randomIntBetween(min, max) = Math.floor(r * (max - min + 1) + min)` for a
draw `r` of `Math.random()`. -/
def Mousygons.randomIntBetween (r min max : ℚ) : ℚ :=
  ((⌊r * (max - min + 1) + min⌋ : ℤ) : ℚ)

/-- `randomFloatBetween(min, max) = r * (max - min) + min` for a draw `r` of
`Math.random()`. -/
def Mousygons.randomFloatBetween (r min max : ℚ) : ℚ :=
  r * (max - min) + min

/-- Hex-digit test of the regex character class `[a-f\d]` (case-insensitive). -/
def isHexDigit (c : Char) : Bool :=
  ('0' ≤ c && c ≤ '9') || ('a' ≤ c && c ≤ 'f') || ('A' ≤ c && c ≤ 'F')

/-- Numeric value of one hex digit, as consumed by `parseInt(_, 16)`. -/
def hexDigitVal (c : Char) : Nat :=
  if '0' ≤ c && c ≤ '9' then c.toNat - 48
  else if 'a' ≤ c && c ≤ 'f' then c.toNat - 87
  else if 'A' ≤ c && c ≤ 'F' then c.toNat - 55
  else 0

/-- The optional leading hash of the regex. -/
def stripHash (cs : List Char) : List Char :=
  match cs with
  | '#' :: rest => rest
  | cs => cs

/-- `hexToRgb`: match `^#?([a-f\d]{2})([a-f\d]{2})([a-f\d]{2})$` (ignoring
case) and parse the three two-digit groups in base 16; `null` on no match. -/
def Mousygons.hexToRgb (hex : String) : Option RGB :=
  match stripHash hex.toList with
  | [c1, c2, c3, c4, c5, c6] =>
    if [c1, c2, c3, c4, c5, c6].all isHexDigit then
      some { r := hexDigitVal c1 * 16 + hexDigitVal c2,
             g := hexDigitVal c3 * 16 + hexDigitVal c4,
             b := hexDigitVal c5 * 16 + hexDigitVal c6 }
    else none
  | _ => none

/-- The regex pattern of `hexToRgb`, as a predicate on the input string:
an optional `#` followed by exactly six hex digits. -/
def matchesHexPattern (s : String) : Bool :=
  let cs := stripHash s.toList
  cs.length == 6 && cs.all isHexDigit

/-- One attempt (or chain of attempts) of the `while(!foundPosition)` loop of
`createPoint`: draw size, x and y; if some active point conflicts, retry with
the rest of the random stream, otherwise draw the fade speed and return the
new point.  `none` models a random stream that ran dry while the source loop
would still be running (the loop has no exit other than the accepting
`return`, so the trailing `return new Point(0, 0, 0, 0)` is dead code and has
no counterpart here). -/
def Mousygons.createPoint (pts : List Point) : List ℚ → Option (Point × List ℚ)
  | rDim :: rX :: rY :: rest =>
    let dimensions := Mousygons.randomIntBetween rDim 2 4
    let positionX :=
      Mousygons.randomIntBetween rX dimensions (Mousygons.CANVAS_WIDTH - dimensions / 2)
    let positionY :=
      Mousygons.randomIntBetween rY dimensions (Mousygons.CANVAS_HEIGHT - dimensions / 2)
    if pts.any (fun point => point.conflictsWith positionX positionY dimensions) then
      Mousygons.createPoint pts rest
    else
      match rest with
      | rFade :: rest2 =>
        some (Point.construct positionX positionY dimensions
          (Mousygons.randomFloatBetween rFade Mousygons.FADE_MIN Mousygons.FADE_MAX),
          rest2)
      | [] => none
  | _ => none

/-- The `while(this.points.length < MAX_POINTS_ALIVE)` loop of `fillPoints`,
with the iteration count `MAX_POINTS_ALIVE - points.length` made explicit
(each iteration appends exactly one point, so the loop runs exactly that many
times). -/
def Mousygons.fillPointsGo : Nat → List ℚ → List Point → Option (List Point × List ℚ)
  | 0, rands, pts => some (pts, rands)
  | n + 1, rands, pts =>
    match Mousygons.createPoint pts rands with
    | none => none
    | some (point, rest) => Mousygons.fillPointsGo n rest (pts ++ [point])

/-- `fillPoints()`: top the active collection up to `MAX_POINTS_ALIVE`. -/
def Mousygons.fillPoints (rands : List ℚ) (pts : List Point) :
    Option (List Point × List ℚ) :=
  Mousygons.fillPointsGo (Mousygons.MAX_POINTS_ALIVE - pts.length) rands pts

/-- The indexed `for` loop of `updatePoints`: at index `i`, update the point
in place (`List.set`), and if it is now satisfied `splice(i, 1)`
(`List.eraseIdx`); either way the index then increments.  The fuel argument
is an embedding artifact: the loop body runs at most `pts.length` times
(the index strictly increases and the length never grows), so fuel
`pts.length` is never exhausted. -/
def Mousygons.updatePointsGo : Nat → Nat → List Point → List Point
  | 0, _, pts => pts
  | fuel + 1, i, pts =>
    if h : i < pts.length then
      let point := (pts.get ⟨i, h⟩).update
      let pts2 := pts.set i point
      if point.satisfied then Mousygons.updatePointsGo fuel (i + 1) (pts2.eraseIdx i)
      else Mousygons.updatePointsGo fuel (i + 1) pts2
    else pts

/-- `updatePoints()`: advance every point and evict satisfied ones, with the
forward-index iteration of the source. -/
def Mousygons.updatePoints (pts : List Point) : List Point :=
  Mousygons.updatePointsGo pts.length 0 pts

/-- Operations the controller issues against the 2D canvas context. -/
inductive CanvasOp where
  | clearRect (x y w h : ℚ)
  | setFillStyle (r g b : Nat) (a : ℚ)
  | beginPath
  | fillRect (x y w h : ℚ)
  | stroke
deriving DecidableEq

/-- `drawPoints()`: for each point, set the fill style to the fixed teal with
alpha `getAlpha() / 255`, `beginPath`, fill the square centered on the point,
`stroke`.  (`hexToRgb("#00bf9b")!` cannot be `null`; `none` is mapped to no
ops.) -/
def Mousygons.drawPoints (pts : List Point) : List CanvasOp :=
  (pts.map (fun point =>
    match Mousygons.hexToRgb ("#00bf9b") with
    | some rgb =>
      [CanvasOp.setFillStyle rgb.r rgb.g rgb.b (point.alpha / 255),
       CanvasOp.beginPath,
       CanvasOp.fillRect (point.x - point.dimensions / 2)
         (point.y - point.dimensions / 2) point.dimensions point.dimensions,
       CanvasOp.stroke]
    | none => [])).flatten

/-- `clearCanvas()`: clear the whole 64×64 surface. -/
def Mousygons.clearCanvasOps : List CanvasOp :=
  [CanvasOp.clearRect 0 0 Mousygons.CANVAS_WIDTH Mousygons.CANVAS_HEIGHT]

/-- Mutable state of the `Mousygons` controller: last stored pointer
position, requested overlay placement (the CSS `left`/`top` of the canvas),
and the active point collection. -/
structure MousygonsState where
  mousePositionX : ℚ
  mousePositionY : ℚ
  canvasLeft : ℚ
  canvasTop : ℚ
  points : List Point
deriving DecidableEq

/-- `updateMouseCanvas()`: request overlay placement
`left = mouse.x - CANVAS_WIDTH/2 + MOUSE_WIDTH/2`,
`top = mouse.y - CANVAS_HEIGHT/2 + MOUSE_HEIGHT/2`. -/
def Mousygons.updateMouseCanvas (st : MousygonsState) : MousygonsState :=
  { st with
    canvasLeft := st.mousePositionX - Mousygons.CANVAS_WIDTH / 2 + Mousygons.MOUSE_WIDTH / 2,
    canvasTop := st.mousePositionY - Mousygons.CANVAS_HEIGHT / 2 + Mousygons.MOUSE_HEIGHT / 2 }

/-- `mouseMovementHandler(event)`: store `(pageX, pageY)` as the pointer
position and reposition the overlay; it touches no canvas context, so the
emitted op list is empty. -/
def Mousygons.mouseMovementHandler (st : MousygonsState) (pageX pageY : ℚ) :
    MousygonsState × List CanvasOp :=
  (Mousygons.updateMouseCanvas
    { st with mousePositionX := pageX, mousePositionY := pageY }, [])

/-- The per-tick `update()`: clear, fill, advance-and-evict, draw.  The
random stream drives `fillPoints`; `none` models a stream that ran dry. -/
def Mousygons.update (rands : List ℚ) (st : MousygonsState) :
    Option (MousygonsState × List ℚ × List CanvasOp) :=
  match Mousygons.fillPoints rands st.points with
  | none => none
  | some (filled, rest) =>
    let updated := Mousygons.updatePoints filled
    some ({ st with points := updated }, rest,
      Mousygons.clearCanvasOps ++ Mousygons.drawPoints updated)

/-- All draws of the random source lie in `[0, 1)`, which is what
`Math.random()` guarantees. -/
def validRands (rands : List ℚ) : Prop :=
  ∀ r ∈ rands, 0 ≤ r ∧ r < 1

instance : DecidablePred validRands := fun rands =>
  inferInstanceAs (Decidable (∀ r ∈ rands, 0 ≤ r ∧ r < 1))

/-- Pairwise separation actually enforced by the placement search: each point
is farther than six times the size of the *later-placed* point from every point
that was placed before it (list order is placement order). -/
def pairwiseSeparated (pts : List Point) : Prop :=
  ∀ (i j : Nat) (hi : i < pts.length) (hj : j < pts.length), i < j →
    (pts[i]).distanceToCoords (pts[j]).x (pts[j]).y > (((pts[j]).dimensions * 6 : ℚ) : ℝ)

/-- The stronger reading of the separation property taken by the claim: the
minimum distance scales with the size of the *first* point of every ordered
pair, not only the later-placed one. -/
def pairwiseSeparatedClaim (pts : List Point) : Prop :=
  ∀ (i j : Nat) (hi : i < pts.length) (hj : j < pts.length), i ≠ j →
    (pts[i]).distanceToCoords (pts[j]).x (pts[j]).y > (((pts[i]).dimensions * 6 : ℚ) : ℝ)

/-! ### Helper lemmas -/

lemma pairwiseSeparated_nil : pairwiseSeparated [] := by
  intro i j hi
  simp at hi

/-- Appending a point that keeps clearance `> dimensions * 6` from every
already-active point preserves the separation invariant. -/
lemma pairwiseSeparated_concat (pts : List Point) (p : Point)
    (h : pairwiseSeparated pts)
    (hp : ∀ q ∈ pts, q.distanceToCoords p.x p.y > ((p.dimensions * 6 : ℚ) : ℝ)) :
    pairwiseSeparated (pts ++ [p]) := by
  intro i j hi hj hij
  have hlen : (pts ++ [p]).length = pts.length + 1 := by simp
  by_cases hjlt : j < pts.length
  · have hilt : i < pts.length := lt_trans hij hjlt
    rw [List.getElem_append_left hilt, List.getElem_append_left hjlt]
    exact h i j hilt hjlt hij
  · have hjeq : j = pts.length := by omega
    have hilt : i < pts.length := by omega
    rw [List.getElem_append_left hilt, List.getElem_concat_length pts p j hjeq]
    exact hp (pts[i]) (List.getElem_mem hilt)

/-- The executable conflict test is exactly the source comparison
`distanceToCoords(x, y) <= dimensions * 6`. -/
lemma conflictsWith_true_iff (p : Point) (x y d : ℚ) :
    p.conflictsWith x y d = true ↔ p.distanceToCoords x y ≤ ((d * 6 : ℚ) : ℝ) := by
  rw [Point.conflictsWith, decide_eq_true_eq, Point.distanceToCoords, Real.sqrt_le_iff]
  constructor
  · rintro ⟨h1, h2⟩
    refine ⟨by exact_mod_cast h1, by exact_mod_cast h2⟩
  · rintro ⟨h1, h2⟩
    refine ⟨by exact_mod_cast h1, by exact_mod_cast h2⟩

/-- Negated form: no conflict means the distance is strictly larger. -/
lemma conflictsWith_false_iff (p : Point) (x y d : ℚ) :
    p.conflictsWith x y d = false ↔ p.distanceToCoords x y > ((d * 6 : ℚ) : ℝ) := by
  rw [← Bool.not_eq_true, conflictsWith_true_iff, not_le]

/-- `randomIntBetween` always returns (the cast of) an integer. -/
lemma randomIntBetween_isInt (r lo hi : ℚ) :
    ∃ k : ℤ, Mousygons.randomIntBetween r lo hi = (k : ℚ) :=
  ⟨_, rfl⟩

/-- Range of `randomIntBetween` for a draw in `[0, 1)` and an integer lower
bound: the result lies in `[lo, ⌈hi⌉]` (the upper bound overshoots a
non-integral `hi` by rounding up, which is exactly what
`Math.floor(r * (max - min + 1) + min)` does). -/
lemma randomIntBetween_bounds (r lo hi : ℚ) (m : ℤ) (hlo : lo = (m : ℚ))
    (h0 : 0 ≤ r) (h1 : r < 1) (hle : lo ≤ hi) :
    lo ≤ Mousygons.randomIntBetween r lo hi ∧
      Mousygons.randomIntBetween r lo hi ≤ ((⌈hi⌉ : ℤ) : ℚ) := by
  have hspan : (0 : ℚ) < hi - lo + 1 := by linarith
  have hx0 : lo ≤ r * (hi - lo + 1) + lo := by nlinarith
  have hx1 : r * (hi - lo + 1) + lo < hi + 1 := by nlinarith
  constructor
  · rw [Mousygons.randomIntBetween, hlo]
    exact_mod_cast Int.le_floor.mpr (by exact_mod_cast hlo ▸ hx0)
  · rw [Mousygons.randomIntBetween]
    have : ⌊r * (hi - lo + 1) + lo⌋ ≤ ⌈hi⌉ :=
      Int.floor_le_iff.mpr (lt_of_lt_of_le hx1 (by exact_mod_cast add_le_add_right (Int.le_ceil hi) 1))
    exact_mod_cast this

/-- The size draw `randomIntBetween(2, 4)` lands in `{2, 3, 4}`. -/
lemma randomIntBetween_2_4 (r : ℚ) (h0 : 0 ≤ r) (h1 : r < 1) :
    Mousygons.randomIntBetween r 2 4 = 2 ∨ Mousygons.randomIntBetween r 2 4 = 3 ∨
      Mousygons.randomIntBetween r 2 4 = 4 := by
  obtain ⟨k, hk⟩ := randomIntBetween_isInt r 2 4
  obtain ⟨hlo, hhi⟩ := randomIntBetween_bounds r 2 4 2 (by norm_num) h0 h1 (by norm_num)
  rw [hk] at hlo hhi ⊢
  have h4 : ⌈(4 : ℚ)⌉ = 4 := by
    rw [show ((4 : ℚ)) = ((4 : ℤ) : ℚ) by norm_num, Int.ceil_intCast]
  rw [h4] at hhi
  have hk2 : (2 : ℤ) ≤ k := by exact_mod_cast hlo
  have hk4 : k ≤ (4 : ℤ) := by exact_mod_cast hhi
  interval_cases k
  · exact Or.inl (by norm_num)
  · exact Or.inr (Or.inl (by norm_num))
  · exact Or.inr (Or.inr (by norm_num))

/-- Range of `randomFloatBetween` for a draw in `[0, 1)`. -/
lemma randomFloatBetween_mem (r lo hi : ℚ) (h0 : 0 ≤ r) (h1 : r < 1) (hlt : lo < hi) :
    lo ≤ Mousygons.randomFloatBetween r lo hi ∧ Mousygons.randomFloatBetween r lo hi < hi := by
  rw [Mousygons.randomFloatBetween]
  constructor <;> nlinarith

/-- A sub-stream of a valid random stream is valid. -/
lemma validRands_tail (r : ℚ) (rs : List ℚ) (h : validRands (r :: rs)) : validRands rs :=
  fun s hs => h s (List.mem_cons_of_mem r hs)

/-- Everything `createPoint` guarantees about an accepted point: it comes out
of the acceptance branch with size in `{2, 3, 4}`, integer coordinates in the
range produced by the two `randomIntBetween` draws, a fresh fade state, a
fade speed in `[FADE_MIN, FADE_MAX)`, clearance `> dimensions * 6` from every
already-active point, and a still-valid remaining random stream. -/
lemma createPoint_spec :
    ∀ (fuel : Nat) (rands : List ℚ), rands.length ≤ fuel →
    ∀ (pts : List Point) (p : Point) (rest : List ℚ),
      validRands rands →
      Mousygons.createPoint pts rands = some (p, rest) →
      (p.dimensions = 2 ∨ p.dimensions = 3 ∨ p.dimensions = 4) ∧
      (∃ kx : ℤ, p.x = (kx : ℚ)) ∧ (∃ ky : ℤ, p.y = (ky : ℚ)) ∧
      p.dimensions ≤ p.x ∧
      p.x ≤ ((⌈Mousygons.CANVAS_WIDTH - p.dimensions / 2⌉ : ℤ) : ℚ) ∧
      p.dimensions ≤ p.y ∧
      p.y ≤ ((⌈Mousygons.CANVAS_HEIGHT - p.dimensions / 2⌉ : ℤ) : ℚ) ∧
      p.alpha = 0 ∧ p.satisfied = false ∧
      Mousygons.FADE_MIN ≤ p.alphaSpeed ∧ p.alphaSpeed < Mousygons.FADE_MAX ∧
      (∀ q ∈ pts, q.distanceToCoords p.x p.y > ((p.dimensions * 6 : ℚ) : ℝ)) ∧
      validRands rest := by
  intro fuel
  induction fuel with
  | zero =>
    intro rands hlen pts p rest _ hcp
    interval_cases h : rands.length
    rw [List.length_eq_zero.mp h] at hcp
    simp [Mousygons.createPoint] at hcp
  | succ n ih =>
    intro rands hlen pts p rest hv hcp
    match rands with
    | [] => simp [Mousygons.createPoint] at hcp
    | [r1] => simp [Mousygons.createPoint] at hcp
    | [r1, r2] => simp [Mousygons.createPoint] at hcp
    | r1 :: r2 :: r3 :: rest0 =>
      simp only [Mousygons.createPoint] at hcp
      by_cases hconf : (pts.any fun point =>
          point.conflictsWith
            (Mousygons.randomIntBetween r2 (Mousygons.randomIntBetween r1 2 4)
              (Mousygons.CANVAS_WIDTH - Mousygons.randomIntBetween r1 2 4 / 2))
            (Mousygons.randomIntBetween r3 (Mousygons.randomIntBetween r1 2 4)
              (Mousygons.CANVAS_HEIGHT - Mousygons.randomIntBetween r1 2 4 / 2))
            (Mousygons.randomIntBetween r1 2 4)) = true
      · rw [if_pos hconf] at hcp
        have hv0 : validRands rest0 :=
          validRands_tail r3 _ (validRands_tail r2 _ (validRands_tail r1 _ hv))
        have hlen0 : rest0.length ≤ n := by
          simp only [List.length_cons] at hlen; omega
        exact ih rest0 hlen0 pts p rest hv0 hcp
      · rw [if_neg hconf] at hcp
        match rest0 with
        | [] => simp at hcp
        | rFade :: rest2 =>
          simp only [Option.some.injEq, Prod.mk.injEq] at hcp
          obtain ⟨hp, hrest⟩ := hcp
          obtain ⟨hr1, hr1u⟩ := hv r1 (by simp)
          obtain ⟨hr2, hr2u⟩ := hv r2 (by simp)
          obtain ⟨hr3, hr3u⟩ := hv r3 (by simp)
          obtain ⟨hrF, hrFu⟩ := hv rFade (by simp)
          set d := Mousygons.randomIntBetween r1 2 4 with hd
          have hdim : d = 2 ∨ d = 3 ∨ d = 4 := randomIntBetween_2_4 r1 hr1 hr1u
          have hd0 : (0 : ℚ) ≤ d := by rcases hdim with h | h | h <;> rw [h] <;> norm_num
          have hdm : ∃ m : ℤ, d = (m : ℚ) := randomIntBetween_isInt r1 2 4
          obtain ⟨m, hm⟩ := hdm
          have hdlex : d ≤ Mousygons.CANVAS_WIDTH - d / 2 := by
            rw [Mousygons.CANVAS_WIDTH]
            rcases hdim with h | h | h <;> rw [h] <;> norm_num
          have hdley : d ≤ Mousygons.CANVAS_HEIGHT - d / 2 := by
            rw [Mousygons.CANVAS_HEIGHT]
            rcases hdim with h | h | h <;> rw [h] <;> norm_num
          have hxb := randomIntBetween_bounds r2 d (Mousygons.CANVAS_WIDTH - d / 2) m hm
            hr2 hr2u hdlex
          have hyb := randomIntBetween_bounds r3 d (Mousygons.CANVAS_HEIGHT - d / 2) m hm
            hr3 hr3u hdley
          have hfade := randomFloatBetween_mem rFade Mousygons.FADE_MIN Mousygons.FADE_MAX
            hrF hrFu (by rw [Mousygons.FADE_MIN, Mousygons.FADE_MAX]; norm_num)
          have hsep : ∀ q ∈ pts,
              q.distanceToCoords
                (Mousygons.randomIntBetween r2 d (Mousygons.CANVAS_WIDTH - d / 2))
                (Mousygons.randomIntBetween r3 d (Mousygons.CANVAS_HEIGHT - d / 2)) >
                ((d * 6 : ℚ) : ℝ) := by
            intro q hq
            have := (List.any_eq_false.mp (Bool.not_eq_true _ ▸ hconf)) q hq
            exact (conflictsWith_false_iff q _ _ d).mp (by simpa using this)
          subst hp
          refine ⟨hdim, randomIntBetween_isInt r2 _ _, randomIntBetween_isInt r3 _ _,
            hxb.1, hxb.2, hyb.1, hyb.2, rfl, rfl, hfade.1, hfade.2, hsep, ?_⟩
          rw [← hrest]
          exact validRands_tail rFade _
            (validRands_tail r3 _ (validRands_tail r2 _ (validRands_tail r1 _ hv)))

/-- Each iteration of the fill loop appends exactly one accepted point, so a
successful run of `n` iterations grows the collection by `n`, preserves the
separation invariant, and leaves a valid random stream. -/
lemma fillPointsGo_spec :
    ∀ (n : Nat) (rands : List ℚ) (pts : List Point) (out : List Point × List ℚ),
      validRands rands →
      Mousygons.fillPointsGo n rands pts = some out →
      out.1.length = pts.length + n ∧
      (pairwiseSeparated pts → pairwiseSeparated out.1) ∧
      validRands out.2 := by
  intro n
  induction n with
  | zero =>
    intro rands pts out hv hfill
    simp only [Mousygons.fillPointsGo, Option.some.injEq] at hfill
    subst hfill
    exact ⟨by simp, fun h => h, hv⟩
  | succ m ih =>
    intro rands pts out hv hfill
    simp only [Mousygons.fillPointsGo] at hfill
    match hcp : Mousygons.createPoint pts rands with
    | none => rw [hcp] at hfill; simp at hfill
    | some (p, rest) =>
      rw [hcp] at hfill
      have hspec := createPoint_spec rands.length rands le_rfl pts p rest hv hcp
      obtain ⟨hlen, hsep, hvr⟩ := ih rest (pts ++ [p]) out hspec.2.2.2.2.2.2.2.2.2.2.2.2 hfill
      refine ⟨by simp at hlen ⊢; omega, fun hs => hsep ?_, hvr⟩
      exact pairwiseSeparated_concat pts p hs hspec.2.2.2.2.2.2.2.2.2.2.2.1

/-- The advance-and-evict loop never grows the collection. -/
lemma updatePointsGo_length_le :
    ∀ (fuel i : Nat) (pts : List Point),
      (Mousygons.updatePointsGo fuel i pts).length ≤ pts.length := by
  intro fuel
  induction fuel with
  | zero => intro i pts; exact le_rfl
  | succ m ih =>
    intro i pts
    rw [Mousygons.updatePointsGo]
    by_cases h : i < pts.length
    · rw [dif_pos h]
      by_cases hs : ((pts.get ⟨i, h⟩).update).satisfied
      · rw [if_pos hs]
        calc (Mousygons.updatePointsGo m (i + 1)
                ((pts.set i ((pts.get ⟨i, h⟩).update)).eraseIdx i)).length
            ≤ ((pts.set i ((pts.get ⟨i, h⟩).update)).eraseIdx i).length := ih _ _
          _ ≤ (pts.set i ((pts.get ⟨i, h⟩).update)).length := List.length_eraseIdx_le _ _
          _ = pts.length := List.length_set _ _ _
      · rw [if_neg hs]
        calc (Mousygons.updatePointsGo m (i + 1)
                (pts.set i ((pts.get ⟨i, h⟩).update))).length
            ≤ (pts.set i ((pts.get ⟨i, h⟩).update)).length := ih _ _
          _ = pts.length := List.length_set _ _ _
    · rw [dif_neg h]

/-- `updatePoints` never grows the collection. -/
lemma updatePoints_length_le (pts : List Point) :
    (Mousygons.updatePoints pts).length ≤ pts.length :=
  updatePointsGo_length_le pts.length 0 pts

/-- `update()` is the identity on a satisfied point. -/
lemma update_of_satisfied (p : Point) (h : p.satisfied = true) : p.update = p := by
  rw [Point.update, if_pos h]

/-- `update()` preserves the fade speed. -/
lemma update_alphaSpeed (p : Point) : p.update.alphaSpeed = p.alphaSpeed := by
  rw [Point.update]
  by_cases h : p.satisfied <;> simp [h]

/-- Fade speed is invariant across any number of updates. -/
lemma updateN_alphaSpeed (p : Point) : ∀ n, (p.updateN n).alphaSpeed = p.alphaSpeed := by
  intro n
  induction n with
  | zero => rfl
  | succ m ih => rw [Point.updateN, update_alphaSpeed, ih]

/-- While a fresh point has not reached the threshold, its fade value after
`n` updates is exactly `n` fade increments. -/
lemma updateN_alpha_of_not_satisfied (x y d f : ℚ) :
    ∀ n, ((Point.construct x y d f).updateN n).satisfied = false →
      ((Point.construct x y d f).updateN n).alpha = n * f := by
  intro n
  induction n with
  | zero => intro _; simp [Point.updateN, Point.construct]
  | succ m ih =>
    intro hn
    rw [Point.updateN] at hn ⊢
    by_cases hs : ((Point.construct x y d f).updateN m).satisfied
    · rw [update_of_satisfied _ hs] at hn
      rw [hs] at hn
      exact absurd hn (by simp)
    · have hm := ih (by simpa using hs)
      rw [Point.update, if_neg hs]
      simp only
      rw [hm, updateN_alphaSpeed, Point.construct]
      push_cast
      ring

/-- If a fresh point is still unsatisfied after `n + 1` updates, then
`(n + 1) * f` has not yet reached the threshold 255. -/
lemma updateN_lt_threshold_of_not_satisfied (x y d f : ℚ) (n : Nat)
    (hn : ((Point.construct x y d f).updateN (n + 1)).satisfied = false) :
    ((n + 1 : Nat) : ℚ) * f < 255 := by
  rw [Point.updateN] at hn
  by_cases hs : ((Point.construct x y d f).updateN n).satisfied
  · rw [update_of_satisfied _ hs, hs] at hn
    exact absurd hn (by simp)
  · have hm := updateN_alpha_of_not_satisfied x y d f n (by simpa using hs)
    rw [Point.update, if_neg hs] at hn
    simp only [decide_eq_false_iff_not, not_le, ge_iff_le] at hn
    rw [hm, updateN_alphaSpeed] at hn
    rw [Point.construct] at hn
    simp only at hn
    rw [Point.ALPHA_THRESHOLD] at hn
    push_cast at hn ⊢
    linarith

/-- Once satisfied, a point stays satisfied under updates. -/
lemma updateN_satisfied_mono (p : Point) (h : p.satisfied = true) :
    ∀ n, (p.updateN n).satisfied = true := by
  intro n
  induction n with
  | zero => exact h
  | succ m ih => rw [Point.updateN, update_of_satisfied _ ih]; exact ih

/-- A successful fill run of `n` iterations grows the collection by exactly
`n`, with no validity assumption on the stream. -/
lemma fillPointsGo_length :
    ∀ (n : Nat) (rands : List ℚ) (pts : List Point) (out : List Point × List ℚ),
      Mousygons.fillPointsGo n rands pts = some out →
      out.1.length = pts.length + n := by
  intro n
  induction n with
  | zero =>
    intro rands pts out hfill
    simp only [Mousygons.fillPointsGo, Option.some.injEq] at hfill
    subst hfill
    simp
  | succ m ih =>
    intro rands pts out hfill
    simp only [Mousygons.fillPointsGo] at hfill
    match hcp : Mousygons.createPoint pts rands with
    | none => rw [hcp] at hfill; simp at hfill
    | some (p, rest) =>
      rw [hcp] at hfill
      have := ih rest (pts ++ [p]) out hfill
      simp at this
      omega

/-! ### Concrete runs used as witnesses and counterexamples -/

/-- A 24-draw random stream: six accepted candidates, four draws each
(size, x, y, fade speed). -/
def randStream24 : List ℚ :=
  [2/3, 6/59, 6/59, 0,
   0, 14/31, 4/31, 0,
   0, 24/31, 4/31, 0,
   0, 4/31, 19/31, 0,
   0, 14/31, 19/31, 0,
   0, 24/31, 19/31, 0]

/-- The six points `fillPoints randStream24 []` produces. -/
def fillResultPoints : List Point :=
  [⟨10, 10, 4, 0, 1/4, false⟩, ⟨30, 10, 2, 0, 1/4, false⟩, ⟨50, 10, 2, 0, 1/4, false⟩,
   ⟨10, 40, 2, 0, 1/4, false⟩, ⟨30, 40, 2, 0, 1/4, false⟩, ⟨50, 40, 2, 0, 1/4, false⟩]

/-- The size-4 point of `fillResultPoints`. -/
def bigPoint : Point := ⟨10, 10, 4, 0, 1/4, false⟩

/-- The size-2 point of `fillResultPoints` 20 pixels from `bigPoint`. -/
def nearPoint : Point := ⟨30, 10, 2, 0, 1/4, false⟩

/-- The point collection after one tick from `randStream24` and an empty
collection: every point advanced by its fade speed 1/4. -/
def tickOutputPoints : List Point :=
  [⟨10, 10, 4, 1/4, 1/4, false⟩, ⟨30, 10, 2, 1/4, 1/4, false⟩, ⟨50, 10, 2, 1/4, 1/4, false⟩,
   ⟨10, 40, 2, 1/4, 1/4, false⟩, ⟨30, 40, 2, 1/4, 1/4, false⟩, ⟨50, 40, 2, 1/4, 1/4, false⟩]

/-- The canvas ops of that tick: one clear, then four ops per point. -/
def tickOutputOps : List CanvasOp :=
  [CanvasOp.clearRect 0 0 64 64,
   CanvasOp.setFillStyle 0 191 155 (1/1020), CanvasOp.beginPath,
   CanvasOp.fillRect 8 8 4 4, CanvasOp.stroke,
   CanvasOp.setFillStyle 0 191 155 (1/1020), CanvasOp.beginPath,
   CanvasOp.fillRect 29 9 2 2, CanvasOp.stroke,
   CanvasOp.setFillStyle 0 191 155 (1/1020), CanvasOp.beginPath,
   CanvasOp.fillRect 49 9 2 2, CanvasOp.stroke,
   CanvasOp.setFillStyle 0 191 155 (1/1020), CanvasOp.beginPath,
   CanvasOp.fillRect 9 39 2 2, CanvasOp.stroke,
   CanvasOp.setFillStyle 0 191 155 (1/1020), CanvasOp.beginPath,
   CanvasOp.fillRect 29 39 2 2, CanvasOp.stroke,
   CanvasOp.setFillStyle 0 191 155 (1/1020), CanvasOp.beginPath,
   CanvasOp.fillRect 49 39 2 2, CanvasOp.stroke]

/-- A point one update away from the 255 threshold. -/
def skipPointA : Point := ⟨10, 10, 2, 509/2, 1, false⟩

/-- A fresh point sitting right after `skipPointA` in the collection. -/
def skipPointB : Point := ⟨20, 20, 2, 0, 1, false⟩

/-! ### Claim theorems -/

/-- C1: the claim says every active point is updated exactly once per tick
and removal never skips a subsequent point.  The code violates this: when
`skipPointA` becomes satisfied and is spliced out at index 0, the index still
increments, so `skipPointB` — shifted into slot 0 — is skipped: it survives
the tick with its fade value still 0, although one `update()` call would have
raised it to 1.  (The spec itself flags forward-index removal as the known
failure mode, so this is a bug in the code, not in the claim.) -/
theorem updatePoints_skips_after_eviction :
    Mousygons.updatePoints [skipPointA, skipPointB] = [skipPointB] ∧
    skipPointB.alpha = 0 ∧ skipPointB.update.alpha = 1 := by
  refine ⟨by with_unfolding_all rfl, by with_unfolding_all rfl, by with_unfolding_all rfl⟩

/-- C4: a fresh point with fade increment `f > 0` is satisfied after at most
`⌈255 / f⌉` calls to `update()`; a satisfied point is a fixed point of
`update()` (so the flag never flips back and no state changes further). -/
theorem point_update_reaches_satisfied (x y d f : ℚ) (hf : 0 < f) :
    ((Point.construct x y d f).updateN (⌈(255 : ℚ) / f⌉).toNat).satisfied = true ∧
    (∀ p : Point, p.satisfied = true → p.update = p) ∧
    (∀ (p : Point) (n : Nat), p.satisfied = true → (p.updateN n).satisfied = true) := by
  refine ⟨?_, fun p hp => update_of_satisfied p hp,
    fun p n hp => updateN_satisfied_mono p hp n⟩
  by_contra hns
  have hfalse : ((Point.construct x y d f).updateN (⌈(255 : ℚ) / f⌉).toNat).satisfied = false := by
    simpa using hns
  have hpos : (0 : ℚ) < 255 / f := by positivity
  have hceil : (1 : ℤ) ≤ ⌈(255 : ℚ) / f⌉ := Int.ceil_pos.mpr hpos
  obtain ⟨m, hm⟩ : ∃ m, (⌈(255 : ℚ) / f⌉).toNat = m + 1 :=
    ⟨(⌈(255 : ℚ) / f⌉).toNat - 1, by omega⟩
  have hlt := updateN_lt_threshold_of_not_satisfied x y d f m (hm ▸ hfalse)
  have h1 : (((⌈(255 : ℚ) / f⌉).toNat : ℚ)) * f < 255 := by
    rw [hm]; exact_mod_cast hlt
  have h2 : (((⌈(255 : ℚ) / f⌉).toNat : ℚ)) < 255 / f := by
    rw [lt_div_iff₀ hf]; exact h1
  have h3 : (((⌈(255 : ℚ) / f⌉).toNat : ℤ)) < ⌈(255 : ℚ) / f⌉ := by
    refine Int.lt_ceil.mpr ?_
    exact_mod_cast h2
  rw [Int.toNat_of_nonneg (by omega)] at h3
  omega

/-- Witness for C4 at `f = 255`: one update satisfies a fresh point. -/
theorem point_update_reaches_satisfied_witness :
    ((Point.construct 0 0 2 255).updateN (⌈(255 : ℚ) / 255⌉).toNat).satisfied = true :=
  (point_update_reaches_satisfied 0 0 2 255 (by norm_num)).1

/-- C6: `hexToRgb` on the canonical teal (with and without the hash, in
either case), on a malformed string, and in general: it returns no match
exactly when the input fails the optional-hash six-hex-digit pattern. -/
theorem hexToRgb_cases :
    Mousygons.hexToRgb ("#00bf9b") = some ⟨0, 191, 155⟩ ∧
    Mousygons.hexToRgb ("00BF9B") = some ⟨0, 191, 155⟩ ∧
    Mousygons.hexToRgb ("not-a-color") = none ∧
    ∀ s : String, (Mousygons.hexToRgb s).isNone = !(matchesHexPattern s) := by
  refine ⟨by with_unfolding_all rfl, by with_unfolding_all rfl, by with_unfolding_all rfl, ?_⟩
  intro s
  rw [Mousygons.hexToRgb, matchesHexPattern]
  rcases stripHash s.toList with _ | ⟨a, _ | ⟨b, _ | ⟨c, _ | ⟨d, _ | ⟨e, _ | ⟨f, _ | ⟨g, t⟩⟩⟩⟩⟩⟩⟩ <;>
    simp only [List.length_cons, List.length_nil] <;> try rfl
  by_cases hall : [a, b, c, d, e, f].all isHexDigit
  · rw [if_pos hall]
    simp [hall]
  · rw [if_neg hall]
    simp only [List.all_cons, List.all_nil, Bool.and_true] at hall ⊢
    simp [hall]

/-- C7: for any draw in `[0, 1)`, `randomIntBetween(2, 4)` lands in
`{2, 3, 4}` and `randomFloatBetween(0.25, 1.75)` lands in `[0.25, 1.75)`. -/
theorem random_utils_ranges (r : ℚ) (h0 : 0 ≤ r) (h1 : r < 1) :
    (Mousygons.randomIntBetween r 2 4 = 2 ∨ Mousygons.randomIntBetween r 2 4 = 3 ∨
      Mousygons.randomIntBetween r 2 4 = 4) ∧
    (0.25 : ℚ) ≤ Mousygons.randomFloatBetween r 0.25 1.75 ∧
    Mousygons.randomFloatBetween r 0.25 1.75 < (1.75 : ℚ) := by
  refine ⟨randomIntBetween_2_4 r h0 h1, ?_, ?_⟩
  · exact (randomFloatBetween_mem r 0.25 1.75 h0 h1 (by norm_num)).1
  · exact (randomFloatBetween_mem r 0.25 1.75 h0 h1 (by norm_num)).2

/-- Witness for C7 at the draw `r = 1/2`. -/
theorem random_utils_ranges_witness :
    (Mousygons.randomIntBetween (1/2) 2 4 = 2 ∨ Mousygons.randomIntBetween (1/2) 2 4 = 3 ∨
      Mousygons.randomIntBetween (1/2) 2 4 = 4) ∧
    (0.25 : ℚ) ≤ Mousygons.randomFloatBetween (1/2) 0.25 1.75 ∧
    Mousygons.randomFloatBetween (1/2) 0.25 1.75 < (1.75 : ℚ) :=
  random_utils_ranges (1/2) (by norm_num) (by norm_num)

/-- C9: the pointer-move handler leaves the point collection (length,
membership, order, and every field of every point) untouched and emits no
canvas operation. -/
theorem mouseMovementHandler_points_unchanged (st : MousygonsState) (x y : ℚ) :
    (Mousygons.mouseMovementHandler st x y).1.points = st.points ∧
    (Mousygons.mouseMovementHandler st x y).2 = ([] : List CanvasOp) :=
  ⟨rfl, rfl⟩

/-- C2 counterexample: a reachable fill run (from the empty collection)
produces a size-4 point and a size-2 point 20 pixels apart.  The pair passes
the check in the code (20 > 2.6 = 12) but violates the symmetric requirement of the claim
`distance > size(p) · 6` for the ordered pair starting at the size-4 point
(20 ≤ 4·6), so the claim as stated is false of the code. -/
theorem fill_admits_pair_conflicting_for_larger_size :
    Mousygons.fillPoints randStream24 [] = some (fillResultPoints, []) ∧
    bigPoint ∈ fillResultPoints ∧ nearPoint ∈ fillResultPoints ∧ bigPoint ≠ nearPoint ∧
    ¬(bigPoint.distanceToCoords nearPoint.x nearPoint.y >
        ((bigPoint.dimensions * 6 : ℚ) : ℝ)) ∧
    ¬pairwiseSeparatedClaim fillResultPoints := by
  have hdist : bigPoint.distanceToCoords nearPoint.x nearPoint.y ≤
      ((bigPoint.dimensions * 6 : ℚ) : ℝ) := by
    have h := (conflictsWith_true_iff bigPoint nearPoint.x nearPoint.y
      bigPoint.dimensions).mp (by with_unfolding_all rfl)
    exact h
  refine ⟨by with_unfolding_all rfl, List.mem_cons_self _ _, ?_, ?_, not_lt.mpr hdist, ?_⟩
  · rw [fillResultPoints]
    exact List.mem_cons_of_mem _ (List.mem_cons_self _ _)
  · intro h
    have : bigPoint.dimensions = nearPoint.dimensions := by rw [h]
    rw [bigPoint, nearPoint] at this
    simp only at this
    norm_num at this
  · intro hclaim
    have h01 := hclaim 0 1 (by rw [fillResultPoints]; simp) (by rw [fillResultPoints]; simp)
      (by omega)
    simp only [fillResultPoints, List.getElem_cons_zero, List.getElem_cons_succ] at h01
    exact absurd h01 (not_lt.mpr hdist)

/-- C2 (amended): the placement search guarantees separation scaled by the
size of the later-placed point of each pair (the candidate whose rejection
test ran), not by the size of both points: any successful `fillPoints` run
starting from a collection with that invariant preserves it; from the empty
collection the invariant thus holds for all pairs, with `q` the later-placed
point of the pair. -/
theorem fillPoints_pairwise_separated (rands : List ℚ) (pts pts2 : List Point)
    (rest : List ℚ) (hv : validRands rands) (hsep : pairwiseSeparated pts)
    (hfill : Mousygons.fillPoints rands pts = some (pts2, rest)) :
    pairwiseSeparated pts2 :=
  (fillPointsGo_spec (Mousygons.MAX_POINTS_ALIVE - pts.length) rands pts (pts2, rest)
    hv hfill).2.1 hsep

/-- Witness for C2 on the concrete run `fillPoints randStream24 []`. -/
theorem fillPoints_pairwise_separated_witness : pairwiseSeparated fillResultPoints :=
  fillPoints_pairwise_separated randStream24 [] fillResultPoints []
    (by with_unfolding_all decide) pairwiseSeparated_nil (by with_unfolding_all rfl)

/-- C3: the point budget.  Fill from a collection of at most 6 points stops
at 6; fill from a collection already at (or above) 6 appends nothing;
advance-and-evict never grows the collection; hence a whole tick started at
or below 6 active points ends at or below 6 (drawing emits canvas ops only
and cannot touch the collection). -/
theorem point_budget_le_six :
    (∀ (rands : List ℚ) (pts : List Point) (out : List Point × List ℚ),
      pts.length ≤ Mousygons.MAX_POINTS_ALIVE →
      Mousygons.fillPoints rands pts = some out →
      out.1.length ≤ Mousygons.MAX_POINTS_ALIVE) ∧
    (∀ (rands : List ℚ) (pts : List Point),
      Mousygons.MAX_POINTS_ALIVE ≤ pts.length →
      Mousygons.fillPoints rands pts = some (pts, rands)) ∧
    (∀ pts : List Point, (Mousygons.updatePoints pts).length ≤ pts.length) ∧
    (∀ (rands : List ℚ) (st : MousygonsState) (out : MousygonsState × List ℚ × List CanvasOp),
      st.points.length ≤ Mousygons.MAX_POINTS_ALIVE →
      Mousygons.update rands st = some out →
      out.1.points.length ≤ Mousygons.MAX_POINTS_ALIVE) := by
  have hfill : ∀ (rands : List ℚ) (pts : List Point) (out : List Point × List ℚ),
      pts.length ≤ Mousygons.MAX_POINTS_ALIVE →
      Mousygons.fillPoints rands pts = some out →
      out.1.length ≤ Mousygons.MAX_POINTS_ALIVE := by
    intro rands pts out hle hf
    have := fillPointsGo_length (Mousygons.MAX_POINTS_ALIVE - pts.length) rands pts out hf
    omega
  refine ⟨hfill, ?_, updatePoints_length_le, ?_⟩
  · intro rands pts hge
    rw [Mousygons.fillPoints, Nat.sub_eq_zero_of_le hge]
    rfl
  · intro rands st out hle hupd
    rw [Mousygons.update] at hupd
    match hf : Mousygons.fillPoints rands st.points with
    | none => rw [hf] at hupd; simp at hupd
    | some (filled, rest) =>
      rw [hf] at hupd
      simp only [Option.some.injEq] at hupd
      have h6 : filled.length ≤ Mousygons.MAX_POINTS_ALIVE :=
        hfill rands st.points (filled, rest) hle hf
      have := updatePoints_length_le filled
      rw [← hupd]
      simp only
      omega

/-- Witness for C3 on a full tick from the empty collection. -/
theorem point_budget_le_six_witness :
    (MousygonsState.mk 0 0 0 0 tickOutputPoints).points.length ≤
      Mousygons.MAX_POINTS_ALIVE :=
  point_budget_le_six.2.2.2 randStream24 ⟨0, 0, 0, 0, []⟩
    (⟨0, 0, 0, 0, tickOutputPoints⟩, [], tickOutputOps)
    (by simp) (by with_unfolding_all rfl)

/-- C5 counterexample: with size 3 drawn (`r = 1/3`) and a high x-draw
(`r = 199/200`), the placement search returns x = 63, which exceeds the
claimed upper bound `64 - size/2 = 62.5`; so the claimed closed interval is
not what the code produces. -/
theorem createPoint_x_exceeds_claimed_interval :
    Mousygons.createPoint [] [1/3, 199/200, 0, 0] =
      some (⟨63, 3, 3, 0, 1/4, false⟩, []) ∧
    ¬((⟨63, 3, 3, 0, 1/4, false⟩ : Point).x ≤
        Mousygons.CANVAS_WIDTH - (⟨63, 3, 3, 0, 1/4, false⟩ : Point).dimensions / 2) := by
  refine ⟨by with_unfolding_all rfl, ?_⟩
  rw [Mousygons.CANVAS_WIDTH]
  norm_num

/-- C5 (amended): every accepted candidate has integer coordinates with
x and y in the closed interval `[size, ⌈64 - size/2⌉]` — the upper end
rounds the claimed `64 - size/2` up to the next integer (63 for sizes 2 and
3, 62 for size 4), because `Math.floor(r*(max-min+1)+min)` can land in
`(max, max+1)` when `max` is fractional. -/
theorem createPoint_coordinate_bounds (rands : List ℚ) (pts : List Point) (p : Point)
    (rest : List ℚ) (hv : validRands rands)
    (h : Mousygons.createPoint pts rands = some (p, rest)) :
    (∃ kx : ℤ, p.x = (kx : ℚ)) ∧ (∃ ky : ℤ, p.y = (ky : ℚ)) ∧
    (p.dimensions = 2 ∨ p.dimensions = 3 ∨ p.dimensions = 4) ∧
    p.dimensions ≤ p.x ∧ p.x ≤ ((⌈Mousygons.CANVAS_WIDTH - p.dimensions / 2⌉ : ℤ) : ℚ) ∧
    p.dimensions ≤ p.y ∧ p.y ≤ ((⌈Mousygons.CANVAS_HEIGHT - p.dimensions / 2⌉ : ℤ) : ℚ) := by
  have hs := createPoint_spec rands.length rands le_rfl pts p rest hv h
  exact ⟨hs.2.1, hs.2.2.1, hs.1, hs.2.2.2.1, hs.2.2.2.2.1, hs.2.2.2.2.2.1, hs.2.2.2.2.2.2.1⟩

/-- Witness for C5 on the run `createPoint [] [1/2, 1/2, 1/2, 1/2]`. -/
theorem createPoint_coordinate_bounds_witness :
    (⟨33, 33, 3, 0, 1, false⟩ : Point).dimensions ≤ (⟨33, 33, 3, 0, 1, false⟩ : Point).x ∧
    (⟨33, 33, 3, 0, 1, false⟩ : Point).x ≤
      ((⌈Mousygons.CANVAS_WIDTH - (⟨33, 33, 3, 0, 1, false⟩ : Point).dimensions / 2⌉ : ℤ) : ℚ) :=
  ⟨(createPoint_coordinate_bounds [1/2, 1/2, 1/2, 1/2] [] ⟨33, 33, 3, 0, 1, false⟩ []
      (by with_unfolding_all decide) (by with_unfolding_all rfl)).2.2.2.1,
   (createPoint_coordinate_bounds [1/2, 1/2, 1/2, 1/2] [] ⟨33, 33, 3, 0, 1, false⟩ []
      (by with_unfolding_all decide) (by with_unfolding_all rfl)).2.2.2.2.1⟩

/-- C8 counterexample: at pointer (100, 100) the handler places the surface
so its center is (106, 110) — offset from the pointer by half the cursor
dimensions (6, 10) — not by half the overlay dimensions minus half the
cursor dimensions (26, 22) in either direction, as the claim states. -/
theorem mouse_center_offset_claim_false :
    ((Mousygons.mouseMovementHandler ⟨0, 0, 0, 0, []⟩ 100 100).1.canvasLeft +
        Mousygons.CANVAS_WIDTH / 2 = 106) ∧
    ((Mousygons.mouseMovementHandler ⟨0, 0, 0, 0, []⟩ 100 100).1.canvasTop +
        Mousygons.CANVAS_HEIGHT / 2 = 110) ∧
    ¬((106 : ℚ) - 100 = Mousygons.CANVAS_WIDTH / 2 - Mousygons.MOUSE_WIDTH / 2) ∧
    ¬((100 : ℚ) - 106 = Mousygons.CANVAS_WIDTH / 2 - Mousygons.MOUSE_WIDTH / 2) ∧
    ¬((110 : ℚ) - 100 = Mousygons.CANVAS_HEIGHT / 2 - Mousygons.MOUSE_HEIGHT / 2) ∧
    ¬((100 : ℚ) - 110 = Mousygons.CANVAS_HEIGHT / 2 - Mousygons.MOUSE_HEIGHT / 2) := by
  refine ⟨?_, ?_, ?_, ?_, ?_, ?_⟩ <;>
    · simp only [Mousygons.mouseMovementHandler, Mousygons.updateMouseCanvas,
        Mousygons.CANVAS_WIDTH, Mousygons.CANVAS_HEIGHT, Mousygons.MOUSE_WIDTH,
        Mousygons.MOUSE_HEIGHT]
      norm_num

/-- C8 (amended): the handler stores the pointer position and requests the
top-left placement of the overlay at pointer − (overlay/2) + (cursor/2) — it is
the top-left corner, not the center, that is offset by the half-overlay-
minus-half-cursor amount; the center of the surface consequently sits at
pointer + (cursor/2), trailing strictly below-right of the pointer.  The
handler performs no drawing. -/
theorem mouseMovementHandler_placement (st : MousygonsState) (x y : ℚ) :
    Mousygons.mouseMovementHandler st x y =
      (MousygonsState.mk x y (x - Mousygons.CANVAS_WIDTH / 2 + Mousygons.MOUSE_WIDTH / 2)
        (y - Mousygons.CANVAS_HEIGHT / 2 + Mousygons.MOUSE_HEIGHT / 2) st.points,
        ([] : List CanvasOp)) ∧
    (Mousygons.mouseMovementHandler st x y).1.canvasLeft + Mousygons.CANVAS_WIDTH / 2 =
      x + Mousygons.MOUSE_WIDTH / 2 ∧
    (Mousygons.mouseMovementHandler st x y).1.canvasTop + Mousygons.CANVAS_HEIGHT / 2 =
      y + Mousygons.MOUSE_HEIGHT / 2 ∧
    x < (Mousygons.mouseMovementHandler st x y).1.canvasLeft + Mousygons.CANVAS_WIDTH / 2 ∧
    y < (Mousygons.mouseMovementHandler st x y).1.canvasTop + Mousygons.CANVAS_HEIGHT / 2 := by
  refine ⟨rfl, ?_, ?_, ?_, ?_⟩ <;>
    · rw [Mousygons.mouseMovementHandler, Mousygons.updateMouseCanvas,
        Mousygons.CANVAS_WIDTH, Mousygons.CANVAS_HEIGHT, Mousygons.MOUSE_WIDTH,
        Mousygons.MOUSE_HEIGHT]
      simp only
      linarith

/-- C10: the trailing `return new Point(0, 0, 0, 0)` of `createPoint` is dead
code: every point the search returns came from the acceptance branch, so it
has size in `{2, 3, 4}`, fade value 0, `satisfied = false`, fade increment in
`[0.25, 1.75)` — and in particular is never the fallback `Point(0, 0, 0, 0)`. -/
theorem createPoint_fallback_unreachable (rands : List ℚ) (pts : List Point) (p : Point)
    (rest : List ℚ) (hv : validRands rands)
    (h : Mousygons.createPoint pts rands = some (p, rest)) :
    (p.dimensions = 2 ∨ p.dimensions = 3 ∨ p.dimensions = 4) ∧
    p.alpha = 0 ∧ p.satisfied = false ∧
    Mousygons.FADE_MIN ≤ p.alphaSpeed ∧ p.alphaSpeed < Mousygons.FADE_MAX ∧
    p ≠ Point.construct 0 0 0 0 := by
  have hs := createPoint_spec rands.length rands le_rfl pts p rest hv h
  refine ⟨hs.1, hs.2.2.2.2.2.2.2.1, hs.2.2.2.2.2.2.2.2.1,
    hs.2.2.2.2.2.2.2.2.2.1, hs.2.2.2.2.2.2.2.2.2.2.1, ?_⟩
  intro heq
  have hdim : p.dimensions = 0 := by rw [heq, Point.construct]
  rcases hs.1 with h2 | h3 | h4
  · rw [hdim] at h2; norm_num at h2
  · rw [hdim] at h3; norm_num at h3
  · rw [hdim] at h4; norm_num at h4

/-- Witness for C10 on the run `createPoint [] [1/2, 1/2, 1/2, 1/2]`. -/
theorem createPoint_fallback_unreachable_witness :
    (⟨33, 33, 3, 0, 1, false⟩ : Point) ≠ Point.construct 0 0 0 0 :=
  (createPoint_fallback_unreachable [1/2, 1/2, 1/2, 1/2] [] ⟨33, 33, 3, 0, 1, false⟩ []
    (by with_unfolding_all decide) (by with_unfolding_all rfl)).2.2.2.2.2
